import Mathlib

/-!
# Verification of the `data-access` clients

Shallow embedding of the repository's two data-source clients:

* `GoogleDriveClient` (src/data_access/sources/google_drive.py): holds an
  optional `file_id` and parser options; offers metadata properties,
  `get_file_id`, `_stream`, `download` and `read`.
* `S3Client` (src/data_access/sources/s3.py): holds parser options and
  offers `write`.

The vendor SDKs (google-api-python-client, boto3, pandas, tqdm) are
modelled as oracles: a `DriveEnv` / `S3Env` records what each remote call
returns, and every operation returns, besides its result, the trace of
remote calls it issued (and, for `download`, the local filesystem writes
it performed).  Remote responses are JSON-like dictionaries, so fields
read with Python's `dict.get` are modelled as `Option`-valued.
-/

namespace DataAccess

/-- Byte content of a file, modelled as a list of characters (the clients
only ever treat content as delimited text). -/
abbrev Bytes := List Char

/-- The slice of pandas `io_options` the embedding models: the field
delimiter used by `to_csv` / `read_csv` (pandas default `','`). -/
structure IOOptions where
  sep : Char := ','
deriving DecidableEq

/-- A pandas DataFrame, as the delimited-text layer sees it: named columns
and rows of textual cells. -/
structure Frame where
  columns : List Bytes
  rows : List (List Bytes)
deriving DecidableEq

/-- Model of `pandas.DataFrame.to_csv`: header line followed by one line per row,
fields joined by the configured separator, lines joined and terminated by
a newline. -/
def toCsv (opts : IOOptions) (df : Frame) : List Char :=
  ['\n'].intercalate ((df.columns :: df.rows).map fun cells => [opts.sep].intercalate cells)
    ++ ['\n']

/-- Failures of the delimited-text parsing layer (`pandas.read_csv`):
empty input, or a row whose field count disagrees with the header. -/
inductive ParseErr
  | emptyData
  | fieldCount
deriving DecidableEq

/-- Drop a single trailing blank line (the artifact of the final newline
emitted by the serializer). -/
def stripTrailingBlank (ls : List (List Char)) : List (List Char) :=
  match ls.getLast? with
  | some [] => ls.dropLast
  | _ => ls

/-- The inverse delimited-text parser (`pandas.read_csv` on this data
shape): split into lines, take the first as the header, split every line
on the separator. -/
def parseCsvE (opts : IOOptions) (content : List Char) : Except ParseErr Frame :=
  match stripTrailingBlank (content.splitOn '\n') with
  | [] => .error .emptyData
  | header :: rest =>
    let cols := header.splitOn opts.sep
    let rows := rest.map fun line => line.splitOn opts.sep
    if rows.all fun r => r.length == cols.length then .ok ⟨cols, rows⟩
    else .error .fieldCount

/-- An error reported by a remote provider (surfaced by the vendor SDK as
an exception, e.g. an HTTP error). -/
inductive RemoteErr
  | http (code : Nat)
deriving DecidableEq

/-- Errors an operation of this repository can surface to its caller. -/
inductive DAError
  /-- Python `ValueError("No file_id set. Use get_file_id to set.")` -/
  | noFileId
  /-- Python `ValueError("No files found")` -/
  | noFilesFound
  /-- Python `ValueError(f"Could not find file ...")` -/
  | fileNotFound (filename : String)
  /-- Python `io.open(None, "wb")` raising `TypeError`: the remote metadata had no name field. -/
  | typeErrorNoneFilename
  /-- a provider failure propagated unmodified -/
  | remote (e : RemoteErr)
  /-- a parsing-layer failure propagated unmodified -/
  | parse (e : ParseErr)
deriving DecidableEq

end DataAccess

deriving instance DecidableEq for Except

namespace DataAccess

/-- Python `str(...)` applied to an optional string: `str(None)` is the
literal text `"None"`. -/
def pyStr : Option String → String
  | none => "None"
  | some s => s

/-- One entry of the `files().list` response: a dictionary that may lack
its `name` or `id` key (the code reads both with `dict.get`). -/
structure FileItem where
  name : Option String
  id : Option String
deriving DecidableEq

/-- A `files().get` response: the metadata fields the client ever reads,
each possibly absent. -/
structure FileMeta where
  createdTime : Option String := none
  modifiedTime : Option String := none
  name : Option String := none
  webViewLink : Option String := none
deriving DecidableEq

/-- The remote Drive API as an oracle.

* `filesGet fileId fields` — what `files().get(fileId=..., fields=...).execute()`
  returns (the `fileId` forwarded may be Python `None`, and `fields` is
  `none` when the code passes no field projection);
* `filesList` — what `files().list(fields="files(id, name)").execute()`
  returns: the optional `files` key of the response dictionary;
* `media fid` — the chunk sequence of the media download for `fid`:
  element `i` is what the `i`-th `next_chunk()` call produces (a chunk, or
  the exception it raises), and the provider reports `done` together with
  the last element. -/
structure DriveEnv where
  filesGet : Option String → Option String → Except RemoteErr FileMeta
  filesList : Except RemoteErr (Option (List FileItem))
  media : String → List (Except RemoteErr Bytes)

/-- One remote call, as recorded in an operation's trace. -/
inductive RemoteCall
  | filesGetMeta (fileId : Option String) (fields : Option String)
  | filesList
  | getMedia (fileId : String)
deriving DecidableEq

/-- The mutable state of a `GoogleDriveClient`: the optional file
identifier and the parser options (`client` itself is the connected
handle, modelled by the `DriveEnv` each operation receives). -/
structure GoogleDriveClient where
  file_id : Option String := none
  io_options : IOOptions := {}
deriving DecidableEq

namespace GoogleDriveClient

/-- Property `source_created_at`: one `files().get` fetch filtered to
`createdTime`, the result's `createdTime` key passed through `str`. -/
def source_created_at (env : DriveEnv) (c : GoogleDriveClient) :
    Except DAError String × List RemoteCall :=
  match env.filesGet c.file_id (some "createdTime") with
  | .error e => (.error (.remote e), [.filesGetMeta c.file_id (some "createdTime")])
  | .ok resp => (.ok (pyStr resp.createdTime), [.filesGetMeta c.file_id (some "createdTime")])

/-- Property `source_updated_at`: one `files().get` fetch filtered to
`modifiedTime`, the result's `modifiedTime` key passed through `str`. -/
def source_updated_at (env : DriveEnv) (c : GoogleDriveClient) :
    Except DAError String × List RemoteCall :=
  match env.filesGet c.file_id (some "modifiedTime") with
  | .error e => (.error (.remote e), [.filesGetMeta c.file_id (some "modifiedTime")])
  | .ok resp => (.ok (pyStr resp.modifiedTime), [.filesGetMeta c.file_id (some "modifiedTime")])

/-- Property `source_filename`: one unfiltered `files().get` fetch, the result's
`name` key passed through `str`. -/
def source_filename (env : DriveEnv) (c : GoogleDriveClient) :
    Except DAError String × List RemoteCall :=
  match env.filesGet c.file_id none with
  | .error e => (.error (.remote e), [.filesGetMeta c.file_id none])
  | .ok resp => (.ok (pyStr resp.name), [.filesGetMeta c.file_id none])

/-- Property `source_uri`: one `files().get` fetch filtered to `webViewLink`, the
result's `webViewLink` key passed through `str`. -/
def source_uri (env : DriveEnv) (c : GoogleDriveClient) :
    Except DAError String × List RemoteCall :=
  match env.filesGet c.file_id (some "webViewLink") with
  | .error e => (.error (.remote e), [.filesGetMeta c.file_id (some "webViewLink")])
  | .ok resp => (.ok (pyStr resp.webViewLink), [.filesGetMeta c.file_id (some "webViewLink")])

/-- Method `get_file_id(filename)`: list the visible files, raise if the list is
empty, otherwise scan in provider order for the first entry whose `name`
(read with `item.get("name", "")`) equals `filename` and store that
entry's `id` (read with `item.get("id")`); raise if no entry matches.
Returns the updated client together with the result and the trace. -/
def get_file_id (env : DriveEnv) (c : GoogleDriveClient) (filename : String) :
    GoogleDriveClient × Except DAError Unit × List RemoteCall :=
  match env.filesList with
  | .error e => (c, .error (.remote e), [.filesList])
  | .ok resp =>
    let items := resp.getD []
    if items.isEmpty then
      (c, .error .noFilesFound, [.filesList])
    else
      match items.find? fun i => i.name.getD "" == filename with
      | some item => ({ c with file_id := item.id }, .ok (), [.filesList])
      | none => (c, .error (.fileNotFound filename), [.filesList])

end GoogleDriveClient

/-- The `while not done: status, done = downloader.next_chunk()` loop of
`_stream`, accumulating chunks into the byte buffer `buf`.  List element
`i` of the first argument is what the `i`-th `next_chunk()` call yields;
the provider signals `done` together with the final element, so the loop
continues exactly while elements remain.  An exception raised by
`next_chunk` aborts the loop and propagates. -/
def streamLoopE : List (Except RemoteErr Bytes) → Bytes → Except RemoteErr Bytes
  | [], buf => .ok buf
  | .error e :: _, _ => .error e
  | [.ok chunk], buf => .ok (buf ++ chunk)
  | .ok chunk :: r :: rest, buf => streamLoopE (r :: rest) (buf ++ chunk)

/-- Number of `next_chunk()` calls the loop of `_stream` performs on a
given chunk sequence. -/
def streamCallsE : List (Except RemoteErr Bytes) → Nat
  | [] => 0
  | .error _ :: _ => 1
  | [.ok _] => 1
  | .ok _ :: r :: rest => 1 + streamCallsE (r :: rest)

namespace GoogleDriveClient

/-- Method `_stream()`: raise `ValueError` when `file_id` is unset, before any
remote request; otherwise issue the chunked media download and run the
`next_chunk` loop until the provider signals done. -/
def _stream (env : DriveEnv) (c : GoogleDriveClient) :
    Except DAError Bytes × List RemoteCall :=
  match c.file_id with
  | none => (.error .noFileId, [])
  | some fid =>
    match streamLoopE (env.media fid) [] with
    | .error e => (.error (.remote e), [.getMedia fid])
    | .ok buf => (.ok buf, [.getMedia fid])

/-- Method `read()`: stream the content afresh and parse it with the configured
`io_options`; stream and parse failures propagate. -/
def read (env : DriveEnv) (c : GoogleDriveClient) :
    Except DAError Frame × List RemoteCall :=
  match GoogleDriveClient._stream env c with
  | (.error e, t) => (.error e, t)
  | (.ok buf, t) =>
    match parseCsvE c.io_options buf with
    | .error pe => (.error (.parse pe), t)
    | .ok df => (.ok df, t)

/-- Method `download()`: fetch the remote filename (an unfiltered `files().get`,
issued before any precondition check), then stream the content, and only
after the stream completed open the local file and write the buffer to it.
The third component is the list of local filesystem writes performed. -/
def download (env : DriveEnv) (c : GoogleDriveClient) :
    Except DAError Unit × List RemoteCall × List (String × Bytes) :=
  match env.filesGet c.file_id none with
  | .error e => (.error (.remote e), [.filesGetMeta c.file_id none], [])
  | .ok resp =>
    match GoogleDriveClient._stream env c with
    | (.error e, t) => (.error e, .filesGetMeta c.file_id none :: t, [])
    | (.ok buf, t) =>
      match resp.name with
      | none => (.error .typeErrorNoneFilename, .filesGetMeta c.file_id none :: t, [])
      | some fname => (.ok (), .filesGetMeta c.file_id none :: t, [(fname, buf)])

end GoogleDriveClient

/-- The operations callable on one `GoogleDriveClient` instance. -/
inductive Op
  | opGetFileId (filename : String)
  | opCreatedAt
  | opUpdatedAt
  | opFilename
  | opUri
  | opStream
  | opRead
  | opDownload

/-- The client state after running one operation.  In the source, the only
method that assigns to `self.file_id` is `get_file_id`; every other method
only reads the state, so it carries the client through unchanged. -/
def stepClient (env : DriveEnv) (c : GoogleDriveClient) : Op → GoogleDriveClient
  | .opGetFileId f => (GoogleDriveClient.get_file_id env c f).1
  | .opCreatedAt => c
  | .opUpdatedAt => c
  | .opFilename => c
  | .opUri => c
  | .opStream => c
  | .opRead => c
  | .opDownload => c

/-- The client state after a sequence of operations. -/
def runOps (env : DriveEnv) (c : GoogleDriveClient) : List Op → GoogleDriveClient
  | [] => c
  | op :: ops => runOps env (stepClient env c op) ops

/-- The remote S3 API as an oracle: what
`put_object(Bucket=..., Key=..., Body=...)` returns for given arguments. -/
structure S3Env where
  putObject : String → String → List Char → Except RemoteErr Unit

/-- The state of an `S3Client`: the parser options. -/
structure S3Client where
  io_options : IOOptions := {}
deriving DecidableEq

/-- Method `S3Client.write(df, bucket, filename)`: serialize the frame with
`to_csv(**io_options)` and issue a single `put_object` with exactly the
supplied bucket and key and the serialization as the body; a provider
failure propagates unchanged.  The second component is the trace of
`put_object` calls (bucket, key, body). -/
def S3Client.write (env : S3Env) (c : S3Client) (df : Frame)
    (bucket : String) (filename : String) :
    Except DAError Unit × List (String × String × List Char) :=
  let csv_buffer := toCsv c.io_options df
  match env.putObject bucket filename csv_buffer with
  | .error e => (.error (.remote e), [(bucket, filename, csv_buffer)])
  | .ok _ => (.ok (), [(bucket, filename, csv_buffer)])

/-! ## Example environments used by witnesses and counterexamples -/

/-- A Drive environment whose metadata responses succeed with every field
absent, whose file listing is empty, and whose downloads are empty. -/
def envOkMeta : DriveEnv where
  filesGet := fun _ _ => .ok {}
  filesList := .ok (some [])
  media := fun _ => []

/-- A Drive environment listing one non-matching named file. -/
def envOneOther : DriveEnv where
  filesGet := fun _ _ => .ok {}
  filesList := .ok (some [{ name := some "other.csv", id := some "id-other" }])
  media := fun _ => []

/-- A Drive environment listing two files of the same name (plus a
decoy), to exercise the duplicate-name tie-break. -/
def envDupNames : DriveEnv where
  filesGet := fun _ _ => .ok {}
  filesList := .ok (some
    [ { name := some "other.csv", id := some "id-0" },
      { name := some "dup.csv", id := some "id-1" },
      { name := some "dup.csv", id := some "id-2" } ])
  media := fun _ => []

/-- A Drive environment listing one matching entry that lacks its `id`
key. -/
def envNoIdItem : DriveEnv where
  filesGet := fun _ _ => .ok {}
  filesList := .ok (some [{ name := some "data.csv", id := none }])
  media := fun _ => []

/-- A Drive environment whose media download yields three chunks and then
signals done, and whose metadata carries a name. -/
def envThreeChunks : DriveEnv where
  filesGet := fun _ _ => .ok { name := some "data.csv" }
  filesList := .ok (some [{ name := some "data.csv", id := some "id-1" }])
  media := fun _ => [.ok ['a'], .ok ['b', 'c'], .ok ['d']]

/-- A Drive environment whose media download raises on the second
`next_chunk` call. -/
def envFailingChunk : DriveEnv where
  filesGet := fun _ _ => .ok { name := some "data.csv" }
  filesList := .ok (some [{ name := some "data.csv", id := some "id-1" }])
  media := fun _ => [.ok ['a'], .error (.http 500)]

/-- An S3 environment that accepts every put. -/
def s3EnvOk : S3Env where
  putObject := fun _ _ _ => .ok ()

/-- An S3 environment that rejects every put with an HTTP 403. -/
def s3EnvReject : S3Env where
  putObject := fun _ _ _ => .error (.http 403)

/-! ## Helper lemmas -/

/-- Running the chunk loop on an all-successful nonempty chunk sequence
appends the concatenation of the chunks to the buffer. -/
theorem streamLoopE_ok (chunks : List Bytes) (h : chunks ≠ []) (buf : Bytes) :
    streamLoopE (chunks.map Except.ok) buf = .ok (buf ++ chunks.flatten) := by
  induction chunks generalizing buf with
  | nil => cases h rfl
  | cons c rest ih =>
    cases rest with
    | nil => simp [streamLoopE]
    | cons d rest' =>
      have hih := ih (by simp) (buf ++ c)
      simp only [List.map_cons] at hih
      simp only [List.map_cons, streamLoopE, List.flatten_cons]
      rw [hih]
      simp [List.append_assoc]

/-- The chunk loop performs one `next_chunk` call per chunk of an
all-successful nonempty chunk sequence. -/
theorem streamCallsE_ok (chunks : List Bytes) (h : chunks ≠ []) :
    streamCallsE (chunks.map Except.ok) = chunks.length := by
  induction chunks with
  | nil => cases h rfl
  | cons c rest ih =>
    cases rest with
    | nil => simp [streamCallsE]
    | cons d rest' =>
      have hih := ih (by simp)
      simp only [List.map_cons] at hih
      simp only [List.map_cons, streamCallsE]
      rw [hih]
      simp only [List.length_cons]
      omega

/-! ## C2: the chunked-download loop -/

/-- C2.  For every provider emitting a finite nonempty sequence of chunks
with completion signalled alongside the last one, the `_stream` loop
performs exactly one `next_chunk` call per chunk — the chunk count is
arbitrary, termination comes from the completion signal alone — and the
returned byte buffer is the concatenation of all chunks; through
`_stream`, a client with a set `file_id` obtains exactly that full
content. -/
theorem C2_stream_reconstructs (chunks : List Bytes) (h : chunks ≠ []) :
    streamLoopE (chunks.map Except.ok) [] = .ok chunks.flatten ∧
    streamCallsE (chunks.map Except.ok) = chunks.length ∧
    ∀ (env : DriveEnv) (c : GoogleDriveClient) (fid : String),
      c.file_id = some fid → env.media fid = chunks.map Except.ok →
      GoogleDriveClient._stream env c = (.ok chunks.flatten, [.getMedia fid]) := by
  refine ⟨by simpa using streamLoopE_ok chunks h [], streamCallsE_ok chunks h, ?_⟩
  intro env c fid hc hm
  have hsl := streamLoopE_ok chunks h []
  rw [List.nil_append] at hsl
  simp only [GoogleDriveClient._stream, hc, hm, hsl]

/-- Witness for C2 at a three-chunk provider. -/
theorem C2_stream_reconstructs_witness :
    streamLoopE ([['a'], ['b', 'c'], ['d']].map Except.ok) [] = .ok ['a', 'b', 'c', 'd'] ∧
    streamCallsE ([['a'], ['b', 'c'], ['d']].map Except.ok) = 3 ∧
    GoogleDriveClient._stream envThreeChunks { file_id := some "id-1" }
      = (.ok ['a', 'b', 'c', 'd'], [.getMedia "id-1"]) := by
  have h := C2_stream_reconstructs [['a'], ['b', 'c'], ['d']] (by decide)
  exact ⟨h.1, h.2.1, h.2.2 envThreeChunks { file_id := some "id-1" } "id-1" rfl rfl⟩

/-! ## C5: S3 write issues exactly one exact put -/

/-- C5.  `S3Client.write` serializes the frame with the client's
configured `io_options` and issues exactly one `put_object`, with exactly
the supplied bucket and key and that serialization as the body; a
provider failure propagates unchanged to the caller (no retry: the trace
still holds a single put). -/
theorem C5_write_single_put (env : S3Env) (c : S3Client) (df : Frame)
    (bucket filename : String) :
    (S3Client.write env c df bucket filename).2
        = [(bucket, filename, toCsv c.io_options df)] ∧
    (∀ e, env.putObject bucket filename (toCsv c.io_options df) = .error e →
      (S3Client.write env c df bucket filename).1 = .error (.remote e)) ∧
    (∀ u, env.putObject bucket filename (toCsv c.io_options df) = .ok u →
      (S3Client.write env c df bucket filename).1 = .ok ()) := by
  refine ⟨?_, ?_, ?_⟩
  · cases hp : env.putObject bucket filename (toCsv c.io_options df) <;>
      simp [S3Client.write, hp]
  · intro e he
    simp [S3Client.write, he]
  · intro u hu
    simp [S3Client.write, hu]

/-- Witness for C5: a concrete frame against an accepting and a rejecting
provider. -/
theorem C5_write_single_put_witness :
    (S3Client.write s3EnvOk {} ⟨[['a']], [[['1']]]⟩ "bkt" "k.csv").2
        = [("bkt", "k.csv", toCsv {} ⟨[['a']], [[['1']]]⟩)] ∧
    (S3Client.write s3EnvOk {} ⟨[['a']], [[['1']]]⟩ "bkt" "k.csv").1 = .ok () ∧
    (S3Client.write s3EnvReject {} ⟨[['a']], [[['1']]]⟩ "bkt" "k.csv").1
        = .error (.remote (.http 403)) := by
  refine ⟨(C5_write_single_put s3EnvOk {} ⟨[['a']], [[['1']]]⟩ "bkt" "k.csv").1,
    (C5_write_single_put s3EnvOk {} ⟨[['a']], [[['1']]]⟩ "bkt" "k.csv").2.2 () rfl,
    (C5_write_single_put s3EnvReject {} ⟨[['a']], [[['1']]]⟩ "bkt" "k.csv").2.1
      (.http 403) rfl⟩

/-! ## C7: absent metadata fields stringify to the literal text "None" -/

/-- C7.  For each metadata property, when the remote metadata fetch
succeeds but the requested field is absent from the response, the
property returns the literal text `"None"` (Python's stringification of
the absent value) rather than a proper absent/optional value — the
result type of every property is a plain string. -/
theorem C7_absent_field_stringifies (env : DriveEnv) (c : GoogleDriveClient) :
    (∀ r, env.filesGet c.file_id (some "createdTime") = .ok r → r.createdTime = none →
      (GoogleDriveClient.source_created_at env c).1 = .ok "None") ∧
    (∀ r, env.filesGet c.file_id (some "modifiedTime") = .ok r → r.modifiedTime = none →
      (GoogleDriveClient.source_updated_at env c).1 = .ok "None") ∧
    (∀ r, env.filesGet c.file_id none = .ok r → r.name = none →
      (GoogleDriveClient.source_filename env c).1 = .ok "None") ∧
    (∀ r, env.filesGet c.file_id (some "webViewLink") = .ok r → r.webViewLink = none →
      (GoogleDriveClient.source_uri env c).1 = .ok "None") := by
  refine ⟨?_, ?_, ?_, ?_⟩ <;> intro r hr hn
  · simp [GoogleDriveClient.source_created_at, hr, hn, pyStr]
  · simp [GoogleDriveClient.source_updated_at, hr, hn, pyStr]
  · simp [GoogleDriveClient.source_filename, hr, hn, pyStr]
  · simp [GoogleDriveClient.source_uri, hr, hn, pyStr]

/-- Witness for C7 at an environment whose metadata responses succeed
with every field absent. -/
theorem C7_absent_field_stringifies_witness :
    (GoogleDriveClient.source_created_at envOkMeta { file_id := some "X" }).1 = .ok "None" ∧
    (GoogleDriveClient.source_updated_at envOkMeta { file_id := some "X" }).1 = .ok "None" ∧
    (GoogleDriveClient.source_filename envOkMeta { file_id := some "X" }).1 = .ok "None" ∧
    (GoogleDriveClient.source_uri envOkMeta { file_id := some "X" }).1 = .ok "None" := by
  have h := C7_absent_field_stringifies envOkMeta { file_id := some "X" }
  exact ⟨h.1 {} rfl rfl, h.2.1 {} rfl rfl, h.2.2.1 {} rfl rfl, h.2.2.2 {} rfl rfl⟩

/-! ## C10: a failed stream never writes a local file -/

/-- C10.  If the streaming step of `download()` fails after the filename
has been fetched, the failure propagates and `download` performs no local
filesystem write: the local file is opened only after the entire stream
has completed, so a failed download never creates or overwrites a local
file. -/
theorem C10_no_write_on_stream_failure (env : DriveEnv) (c : GoogleDriveClient)
    (resp : FileMeta) (hname : env.filesGet c.file_id none = .ok resp)
    (e : DAError) (hstream : (GoogleDriveClient._stream env c).1 = .error e) :
    (GoogleDriveClient.download env c).1 = .error e ∧
    (GoogleDriveClient.download env c).2.2 = [] := by
  rcases hs : GoogleDriveClient._stream env c with ⟨r, t⟩
  rw [hs] at hstream
  simp only at hstream
  subst hstream
  constructor <;> simp [GoogleDriveClient.download, hname, hs]

/-- Witness for C10: the provider raises on the second chunk, after the
filename fetch succeeded; no write happens. -/
theorem C10_no_write_on_stream_failure_witness :
    (GoogleDriveClient.download envFailingChunk { file_id := some "id-1" }).1
        = .error (.remote (.http 500)) ∧
    (GoogleDriveClient.download envFailingChunk { file_id := some "id-1" }).2.2 = [] :=
  C10_no_write_on_stream_failure envFailingChunk { file_id := some "id-1" }
    { name := some "data.csv" } rfl (.remote (.http 500)) rfl

/-! ## C3: get_file_id failure cases leave the client untouched -/

/-- C3.  If the visible-file list is empty, `get_file_id` fails with the
"no files found" condition and does not set an identifier; if it is
non-empty but no entry's name (read as `item.get("name", "")`, i.e. an
absent name reads as the empty string) equals the requested filename,
`get_file_id` fails with the "file not found" condition; in both cases
the client — in particular a previously-set `file_id` — is returned
unchanged. -/
theorem C3_get_file_id_failures (env : DriveEnv) (c : GoogleDriveClient)
    (filename : String) (resp : Option (List FileItem))
    (hl : env.filesList = .ok resp) :
    (resp.getD [] = [] →
      GoogleDriveClient.get_file_id env c filename
        = (c, .error .noFilesFound, [.filesList])) ∧
    (resp.getD [] ≠ [] → (∀ i ∈ resp.getD [], i.name.getD "" ≠ filename) →
      GoogleDriveClient.get_file_id env c filename
        = (c, .error (.fileNotFound filename), [.filesList])) := by
  constructor
  · intro hempty
    simp [GoogleDriveClient.get_file_id, hl, hempty]
  · intro hne hnomatch
    have hfind : (resp.getD []).find? (fun i => i.name.getD "" == filename) = none := by
      rw [List.find?_eq_none]
      intro i hi
      simpa using hnomatch i hi
    simp [GoogleDriveClient.get_file_id, hl, List.isEmpty_iff, hne, hfind]

/-- Witness for C3: an empty listing, and a listing holding only a
non-matching name, against a client with a previously-set identifier. -/
theorem C3_get_file_id_failures_witness :
    GoogleDriveClient.get_file_id envOkMeta { file_id := some "old" } "data.csv"
      = ({ file_id := some "old" }, .error .noFilesFound, [.filesList]) ∧
    GoogleDriveClient.get_file_id envOneOther { file_id := some "old" } "data.csv"
      = ({ file_id := some "old" }, .error (.fileNotFound "data.csv"), [.filesList]) :=
  ⟨(C3_get_file_id_failures envOkMeta { file_id := some "old" } "data.csv"
      (some []) rfl).1 rfl,
   (C3_get_file_id_failures envOneOther { file_id := some "old" } "data.csv"
      (some [{ name := some "other.csv", id := some "id-other" }]) rfl).2
      (by decide) (by decide)⟩

/-! ## C4: get_file_id stores the first matching entry's id -/

/-- C4.  If the visible-file list holds at least one entry whose name
matches the requested filename, `get_file_id` returns normally and sets
`file_id` to the `id` field of the first such entry in provider-returned
order — duplicates are allowed and the first match wins.  (The first
matching entry is expressed with `List.find?`, which scans in list
order.) -/
theorem C4_get_file_id_first_match (env : DriveEnv) (c : GoogleDriveClient)
    (filename : String) (resp : Option (List FileItem)) (item : FileItem)
    (hl : env.filesList = .ok resp)
    (hfind : (resp.getD []).find? (fun i => i.name.getD "" == filename) = some item) :
    GoogleDriveClient.get_file_id env c filename
      = ({ c with file_id := item.id }, .ok (), [.filesList]) := by
  have hne : resp.getD [] ≠ [] := by
    intro hnil
    rw [hnil] at hfind
    simp at hfind
  simp [GoogleDriveClient.get_file_id, hl, List.isEmpty_iff, hne, hfind]

/-- Witness for C4 at a listing with two entries named `dup.csv`: the
first one's id is stored. -/
theorem C4_get_file_id_first_match_witness :
    GoogleDriveClient.get_file_id envDupNames { file_id := none } "dup.csv"
      = ({ file_id := some "id-1" }, .ok (), [.filesList]) :=
  C4_get_file_id_first_match envDupNames { file_id := none } "dup.csv"
    (some [ { name := some "other.csv", id := some "id-0" },
            { name := some "dup.csv", id := some "id-1" },
            { name := some "dup.csv", id := some "id-2" } ])
    { name := some "dup.csv", id := some "id-1" } rfl (by decide)

/-! ## C1: which operations check the precondition before a remote call

The claim says every metadata property and every `read`/`download` call
made with `file_id` unset fails with the precondition condition without
attempting a remote call.  Only `_stream` (and hence `read`) checks the
precondition; the metadata properties and the filename fetch of
`download` issue their `files().get` with the unset identifier. -/

/-- C1, counterexample.  With `file_id` unset, `source_created_at` does
attempt a remote call (its trace is the metadata fetch carrying the unset
identifier) and does not fail with the precondition condition. -/
theorem C1_counterexample :
    ¬ ((GoogleDriveClient.source_created_at envOkMeta { file_id := none }).1
          = .error DAError.noFileId
        ∧ (GoogleDriveClient.source_created_at envOkMeta { file_id := none }).2
          = []) := by
  decide

/-- C1, amended.  With `file_id` unset: `_stream` and `read` fail with the
precondition condition and attempt no remote call; each metadata property
instead issues exactly one remote metadata fetch carrying the unset
identifier; `download` issues exactly its filename fetch with the unset
identifier (and no other remote call), performs no local write, and
surfaces the precondition failure only if that fetch succeeds. -/
theorem C1_amended_precondition (env : DriveEnv) (c : GoogleDriveClient)
    (h : c.file_id = none) :
    GoogleDriveClient._stream env c = (.error .noFileId, []) ∧
    GoogleDriveClient.read env c = (.error .noFileId, []) ∧
    (GoogleDriveClient.source_created_at env c).2
        = [.filesGetMeta none (some "createdTime")] ∧
    (GoogleDriveClient.source_updated_at env c).2
        = [.filesGetMeta none (some "modifiedTime")] ∧
    (GoogleDriveClient.source_filename env c).2 = [.filesGetMeta none none] ∧
    (GoogleDriveClient.source_uri env c).2
        = [.filesGetMeta none (some "webViewLink")] ∧
    (GoogleDriveClient.download env c).2.1 = [.filesGetMeta none none] ∧
    (GoogleDriveClient.download env c).2.2 = [] ∧
    (∀ r, env.filesGet none none = .ok r →
      (GoogleDriveClient.download env c).1 = .error .noFileId) := by
  have hs : GoogleDriveClient._stream env c = (.error .noFileId, []) := by
    simp [GoogleDriveClient._stream, h]
  refine ⟨hs, ?_, ?_, ?_, ?_, ?_, ?_, ?_, ?_⟩
  · simp [GoogleDriveClient.read, hs]
  · simp only [GoogleDriveClient.source_created_at, h]
    cases hf : env.filesGet none (some "createdTime") <;> simp
  · simp only [GoogleDriveClient.source_updated_at, h]
    cases hf : env.filesGet none (some "modifiedTime") <;> simp
  · simp only [GoogleDriveClient.source_filename, h]
    cases hf : env.filesGet none none <;> simp
  · simp only [GoogleDriveClient.source_uri, h]
    cases hf : env.filesGet none (some "webViewLink") <;> simp
  · simp only [GoogleDriveClient.download, h, hs]
    cases hf : env.filesGet none none <;> simp
  · simp only [GoogleDriveClient.download, h, hs]
    cases hf : env.filesGet none none <;> simp
  · intro r hr
    simp [GoogleDriveClient.download, h, hr, hs]

/-- Witness for the amended C1 at a concrete environment. -/
theorem C1_amended_precondition_witness :
    GoogleDriveClient.read envOkMeta { file_id := none } = (.error .noFileId, []) ∧
    (GoogleDriveClient.source_uri envOkMeta { file_id := none }).2
        = [.filesGetMeta none (some "webViewLink")] ∧
    (GoogleDriveClient.download envOkMeta { file_id := none }).1
        = .error .noFileId := by
  have h := C1_amended_precondition envOkMeta { file_id := none } rfl
  exact ⟨h.2.1, h.2.2.2.2.2.1, h.2.2.2.2.2.2.2.2 {} rfl⟩

/-! ## C9: the file_id state machine

The claim says `file_id`, once set, never returns to unset.  The lookup
stores `item.get("id")` of the first name-matching entry; an entry
lacking its `id` key therefore resets `file_id` to unset even though the
call returns normally. -/

/-- C9, counterexample.  A client whose `file_id` is set runs a
`get_file_id` whose first matching entry lacks its `id` key: the call
returns normally and `file_id` is back to unset. -/
theorem C9_counterexample :
    ({ file_id := some "A" } : GoogleDriveClient).file_id ≠ none ∧
    (GoogleDriveClient.get_file_id envNoIdItem { file_id := some "A" } "data.csv").2.1
        = .ok () ∧
    ((GoogleDriveClient.get_file_id envNoIdItem { file_id := some "A" } "data.csv").1).file_id
        = none := by
  decide

/-- Helper for C9: one operation step keeps a set `file_id` set, provided
every listed entry carries its `id` key. -/
theorem stepClient_preserves_set (env : DriveEnv)
    (hids : ∀ items, env.filesList = .ok items → ∀ i ∈ items.getD [], i.id ≠ none)
    (c : GoogleDriveClient) (hset : c.file_id ≠ none) (op : Op) :
    (stepClient env c op).file_id ≠ none := by
  cases op with
  | opGetFileId f =>
    simp only [stepClient]
    unfold GoogleDriveClient.get_file_id
    cases hl : env.filesList with
    | error e => simpa using hset
    | ok resp =>
      simp only
      by_cases hempty : (resp.getD []).isEmpty
      · simp [hempty, hset]
      · simp only [hempty, Bool.false_eq_true, if_false]
        cases hf : (resp.getD []).find? (fun i => i.name.getD "" == f) with
        | none => simpa using hset
        | some item =>
          have hmem : item ∈ resp.getD [] := List.mem_of_find?_eq_some hf
          simpa using hids resp hl item hmem
  | opCreatedAt => exact hset
  | opUpdatedAt => exact hset
  | opFilename => exact hset
  | opUri => exact hset
  | opStream => exact hset
  | opRead => exact hset
  | opDownload => exact hset

/-- C9, amended.  Over every sequence of operations on one client: the
only operations that mutate `file_id` are the constructor and a
successful `get_file_id`, which stores the `id` field of the first
matching entry; every other operation leaves the client unchanged.  Once
`file_id` is set it never returns to unset, provided every entry of the
visible-file listing carries its `id` key (the counterexample's missing
`id` is the one way back to unset). -/
theorem C9_amended_once_set_stays_set (env : DriveEnv)
    (hids : ∀ items, env.filesList = .ok items → ∀ i ∈ items.getD [], i.id ≠ none)
    (c : GoogleDriveClient) (hset : c.file_id ≠ none) (ops : List Op) :
    (runOps env c ops).file_id ≠ none ∧
    (∀ op, (∀ f, op ≠ .opGetFileId f) → stepClient env c op = c) ∧
    (∀ f item resp, env.filesList = .ok resp →
      (resp.getD []).find? (fun i => i.name.getD "" == f) = some item →
      (stepClient env c (.opGetFileId f)).file_id = item.id) := by
  refine ⟨?_, ?_, ?_⟩
  · induction ops generalizing c with
    | nil => exact hset
    | cons op ops ih => exact ih _ (stepClient_preserves_set env hids c hset op)
  · intro op hop
    cases op
    case opGetFileId f => exact absurd rfl (hop f)
    all_goals rfl
  · intro f item resp hl hf
    have hne : resp.getD [] ≠ [] := by
      intro hnil
      rw [hnil] at hf
      simp at hf
    simp [stepClient, GoogleDriveClient.get_file_id, hl, List.isEmpty_iff, hne, hf]

/-- Witness for the amended C9: a run over the duplicate-name listing
(whose entries all carry ids) starting from a set identifier. -/
theorem C9_amended_once_set_stays_set_witness :
    (runOps envDupNames { file_id := some "id-0" }
        [.opGetFileId "dup.csv", .opRead, .opDownload]).file_id ≠ none ∧
    stepClient envDupNames { file_id := some "id-0" } .opRead
      = { file_id := some "id-0" } := by
  have hids : ∀ items, envDupNames.filesList = .ok items →
      ∀ i ∈ items.getD [], i.id ≠ none := by
    intro items hl
    have hitems := Except.ok.inj hl
    subst hitems
    decide
  have h := C9_amended_once_set_stays_set envDupNames hids
    { file_id := some "id-0" } (by decide)
    [.opGetFileId "dup.csv", .opRead, .opDownload]
  exact ⟨h.1, h.2.1 .opRead (fun f he => Op.noConfusion he)⟩

/-! ## C8: read re-fetches and parses with the configured options -/

/-- C8.  For a client with `file_id` set, every `read()` call issues the
media fetch (the trace is never empty and the result is a function of the
environment at call time alone — the embedding keeps no byte or frame
cache, mirroring the source, so two calls against different remote
contents each re-fetch).  The fetched bytes are parsed as delimited text
with the client's configured `io_options`; a parse failure is surfaced
exactly as the parsing layer produced it (`Except.mapError DAError.parse`
wraps the untouched `ParseErr`), and a stream failure propagates. -/
theorem C8_read_fresh_fetch_and_parse (env : DriveEnv) (c : GoogleDriveClient)
    (fid : String) (h : c.file_id = some fid) :
    (GoogleDriveClient.read env c).2 = [.getMedia fid] ∧
    (∀ buf, streamLoopE (env.media fid) [] = .ok buf →
      (GoogleDriveClient.read env c).1
        = (parseCsvE c.io_options buf).mapError DAError.parse) ∧
    (∀ e, streamLoopE (env.media fid) [] = .error e →
      (GoogleDriveClient.read env c).1 = .error (.remote e)) := by
  refine ⟨?_, ?_, ?_⟩
  · simp only [GoogleDriveClient.read, GoogleDriveClient._stream, h]
    cases hl : streamLoopE (env.media fid) [] with
    | error e => simp
    | ok buf => cases hp : parseCsvE c.io_options buf <;> simp [hp]
  · intro buf hb
    simp only [GoogleDriveClient.read, GoogleDriveClient._stream, h, hb]
    cases hp : parseCsvE c.io_options buf <;> simp [hp, Except.mapError]
  · intro e he
    simp [GoogleDriveClient.read, GoogleDriveClient._stream, h, he]

/-- Witness for C8 at the three-chunk provider: the media fetch appears
in the trace and the concatenated content parses under the default
comma options. -/
theorem C8_read_fresh_fetch_and_parse_witness :
    (GoogleDriveClient.read envThreeChunks { file_id := some "id-1" }).2
        = [.getMedia "id-1"] ∧
    (GoogleDriveClient.read envThreeChunks { file_id := some "id-1" }).1
        = .ok ⟨[['a', 'b', 'c', 'd']], []⟩ := by
  have h := C8_read_fresh_fetch_and_parse envThreeChunks { file_id := some "id-1" }
    "id-1" rfl
  refine ⟨h.1, ?_⟩
  rw [h.2.1 ['a', 'b', 'c', 'd'] (by decide)]
  decide

/-! ## C6: write/parse round trip -/

/-- Appending one empty part to a nonempty intercalation appends one
separator: joined-and-terminated lines are the intercalation of the lines
plus a final empty line. -/
theorem intercalate_concat_nil (x : Char) (ls : List (List Char)) (h : ls ≠ []) :
    [x].intercalate (ls ++ [([] : List Char)]) = [x].intercalate ls ++ [x] := by
  induction ls with
  | nil => cases h rfl
  | cons a l ih =>
    cases l with
    | nil =>
      simp [List.intercalate, List.intersperse]
    | cons b m =>
      have hih := ih (by simp)
      simp only [List.cons_append, List.intercalate, List.intersperse_cons_cons,
        List.flatten_cons] at hih ⊢
      rw [hih]
      simp [List.append_assoc]

/-- A character different from the separator and absent from every part
is absent from the intercalation. -/
theorem not_mem_intercalate (x s : Char) (hxs : x ≠ s) (parts : List (List Char))
    (hp : ∀ p ∈ parts, x ∉ p) : x ∉ [s].intercalate parts := by
  induction parts with
  | nil => simp [List.intercalate, List.intersperse]
  | cons a l ih =>
    cases l with
    | nil => simpa [List.intercalate, List.intersperse] using hp a (by simp)
    | cons b m =>
      have hih := ih fun p hp' => hp p (by simp [hp'])
      simp only [List.intercalate, List.intersperse_cons_cons, List.flatten_cons] at hih ⊢
      intro hmem
      rcases List.mem_append.mp hmem with h1 | h2
      · exact hp a (by simp) h1
      · rcases List.mem_append.mp h2 with h3 | h4
        · rw [List.mem_singleton] at h3
          exact hxs h3
        · exact hih h4

/-- Stripping the trailing blank line undoes the final line terminator. -/
theorem stripTrailingBlank_concat (ls : List (List Char)) :
    stripTrailingBlank (ls ++ [([] : List Char)]) = ls := by
  simp [stripTrailingBlank, List.getLast?_concat, List.dropLast_concat]

/-- Round trip of the delimited-text layer: parsing a serialized frame
recovers it, provided the separator is not the line terminator, the
header is nonempty, no column name or cell contains the separator or a
newline, and every row has as many cells as there are columns. -/
theorem parseCsvE_toCsv (opts : IOOptions) (df : Frame)
    (hsep : opts.sep ≠ '\n')
    (hcols : df.columns ≠ [])
    (hsafeC : ∀ cell ∈ df.columns, opts.sep ∉ cell ∧ '\n' ∉ cell)
    (hsafeR : ∀ row ∈ df.rows, ∀ cell ∈ row, opts.sep ∉ cell ∧ '\n' ∉ cell)
    (hlen : ∀ row ∈ df.rows, row.length = df.columns.length) :
    parseCsvE opts (toCsv opts df) = .ok df := by
  have hnl : ('\n' : Char) ≠ opts.sep := fun he => hsep he.symm
  have hlines_safe : ∀ l ∈ (df.columns :: df.rows).map
      (fun cells => [opts.sep].intercalate cells) ++ [([] : List Char)],
      '\n' ∉ l := by
    intro l hl
    rcases List.mem_append.mp hl with hl | hl
    · rcases List.mem_map.mp hl with ⟨cells, hc, rfl⟩
      rcases List.mem_cons.mp hc with rfl | hc
      · exact not_mem_intercalate '\n' opts.sep hnl _ fun p hp => (hsafeC p hp).2
      · exact not_mem_intercalate '\n' opts.sep hnl _ fun p hp => (hsafeR _ hc p hp).2
    · rw [List.mem_singleton] at hl
      subst hl
      simp
  have h1 : toCsv opts df
      = ['\n'].intercalate ((df.columns :: df.rows).map
          (fun cells => [opts.sep].intercalate cells) ++ [[]]) := by
    rw [toCsv, intercalate_concat_nil '\n' _ (by simp)]
  have h2 : (toCsv opts df).splitOn '\n'
      = (df.columns :: df.rows).map (fun cells => [opts.sep].intercalate cells) ++ [[]] := by
    rw [h1]
    exact List.splitOn_intercalate _ '\n' hlines_safe (by simp)
  have h3 : stripTrailingBlank ((toCsv opts df).splitOn '\n')
      = (df.columns :: df.rows).map fun cells => [opts.sep].intercalate cells := by
    rw [h2, stripTrailingBlank_concat]
  have hsplitC : ([opts.sep].intercalate df.columns).splitOn opts.sep = df.columns :=
    List.splitOn_intercalate _ opts.sep (fun l hl => (hsafeC l hl).1) hcols
  have hsplitR : (df.rows.map fun cells => [opts.sep].intercalate cells).map
      (fun line => line.splitOn opts.sep) = df.rows := by
    rw [List.map_map]
    have hcongr : ∀ r ∈ df.rows,
        ((fun line => line.splitOn opts.sep) ∘ fun cells => [opts.sep].intercalate cells) r
          = id r := by
      intro r hr
      have hrne : r ≠ [] := by
        intro hnil
        apply hcols
        have hlr := hlen r hr
        rw [hnil] at hlr
        simp only [List.length_nil] at hlr
        exact List.length_eq_zero.mp hlr.symm
      exact List.splitOn_intercalate _ opts.sep (fun l hl => (hsafeR r hr l hl).1) hrne
    rw [List.map_congr_left hcongr, List.map_id]
  have hall : df.rows.all (fun r => r.length == df.columns.length) = true := by
    rw [List.all_eq_true]
    intro r hr
    exact beq_iff_eq.mpr (hlen r hr)
  simp only [parseCsvE, h3, List.map_cons]
  rw [hsplitC, hsplitR, hall]
  rfl

/-- C6.  Round trip: for every frame (with delimiter-free content and
consistent row widths), writing it via `S3Client.write` and then parsing
the text payload placed in the object store with the inverse
delimited-text parser reproduces the original rows and columns. -/
theorem C6_write_roundtrip (c : S3Client) (df : Frame)
    (hsep : c.io_options.sep ≠ '\n')
    (hcols : df.columns ≠ [])
    (hsafeC : ∀ cell ∈ df.columns, c.io_options.sep ∉ cell ∧ '\n' ∉ cell)
    (hsafeR : ∀ row ∈ df.rows, ∀ cell ∈ row, c.io_options.sep ∉ cell ∧ '\n' ∉ cell)
    (hlen : ∀ row ∈ df.rows, row.length = df.columns.length) :
    ∀ (env : S3Env) (bucket key : String),
      (S3Client.write env c df bucket key).2.map
          (fun call => parseCsvE c.io_options call.2.2) = [.ok df] := by
  intro env bucket key
  have hrt := parseCsvE_toCsv c.io_options df hsep hcols hsafeC hsafeR hlen
  cases hp : env.putObject bucket key (toCsv c.io_options df) <;>
    simp [S3Client.write, hp, hrt]

/-- Witness for C6: a two-column, two-row frame written through the
accepting provider parses back to itself. -/
theorem C6_write_roundtrip_witness :
    (S3Client.write s3EnvOk {}
        ⟨[['a'], ['b']], [[['1'], ['2']], [['3'], ['4']]]⟩ "bkt" "k.csv").2.map
      (fun call => parseCsvE ({} : IOOptions) call.2.2)
      = [.ok ⟨[['a'], ['b']], [[['1'], ['2']], [['3'], ['4']]]⟩] :=
  C6_write_roundtrip {} ⟨[['a'], ['b']], [[['1'], ['2']], [['3'], ['4']]]⟩
    (by decide) (by decide) (by decide) (by decide) (by decide)
    s3EnvOk "bkt" "k.csv"

end DataAccess
